import Mathlib

/-!
Verification of the maestro supervision and socket-runtime core.

The repository is a Rust framework that supervises TCP/UDP network services:
it resolves bind addresses from an interface-selection policy, binds sockets,
drives per-protocol accept/receive loops, and restarts failed services under
an exponential-backoff restart policy.

This file shallowly embeds the relevant Rust functions and proves properties
about them.  Rust `std::time::Duration` values are modelled as their total
length in nanoseconds (a `Nat`); machine-integer arithmetic (`u32`
`saturating_pow`, the `usize -> u32` truncating cast, the overflow panic of
`Duration * u32`) is made explicit.  The asynchronous loops are embedded as
functions of explicit event scripts: a service's successive invocation
results, a socket's successive receive results.  All embeddings follow the
execution path in which the cancellation token never fires, which is the
path every claim below is about.
-/

namespace Maestro

/-- Nanoseconds per second, the unit conversion constant of Rust `Duration`. -/
def NANOS_PER_SEC : Nat := 1000000000

/-- One past the largest value representable in a `u64` (the `secs` field of
a Rust `Duration`). -/
def U64_SIZE : Nat := 2 ^ 64

/-- Largest value representable in a `u32`. -/
def U32_MAX : Nat := 2 ^ 32 - 1

/-- The 60-second backoff cap, `Duration::from_secs(60)`, in nanoseconds. -/
def MAX_BACKOFF : Nat := 60 * NANOS_PER_SEC

/-- Rust `Duration * u32` (`Duration::checked_mul` + panic), on durations
modelled as total nanoseconds.  `Duration::checked_mul` overflows exactly
when the resulting number of whole seconds does not fit in a `u64`; the
panicking `Mul` impl is modelled by returning `none` in that case. -/
def durMulU32 (d f : Nat) : Option Nat :=
  if d * f / NANOS_PER_SEC < U64_SIZE then some (d * f) else none

/-- Rust `2u32.saturating_pow e`: the exact power `2 ^ e`, saturated at
`u32::MAX`. -/
def satPow2 (e : Nat) : Nat := min (2 ^ e) U32_MAX

/-- Embeds `struct RestartPolicy` of `src/supervisor.rs` (identical to the
one in `src/supervisor/policy.rs`): an optional restart budget and a base
backoff delay (modelled in nanoseconds). -/
structure RestartPolicy where
  max_attempts : Option Nat
  base_delay : Nat
deriving DecidableEq

/-- Embeds `RestartPolicy::delay` of `src/supervisor.rs` (textually the same
computation as `RestartPolicy::delay_for_attempt` in
`src/supervisor/policy.rs`):

`let factor = 2u32.saturating_pow(attempt.saturating_sub(1) as u32);`
`(self.base_delay * factor).min(Duration::from_secs(60))`

`Nat.sub` is saturating like `usize::saturating_sub`; the `as u32` cast
truncates modulo `2 ^ 32`; the `Duration * u32` multiplication panics on
overflow (`none`). -/
def RestartPolicy.delay (p : RestartPolicy) (attempt : Nat) : Option Nat :=
  match durMulU32 p.base_delay (satPow2 ((attempt - 1) % 2 ^ 32)) with
  | none => none
  | some d => some (min d MAX_BACKOFF)

/-- The value `RestartPolicy.delay` computes whenever the duration
multiplication does not overflow. -/
def delayVal (base attempt : Nat) : Nat :=
  min (base * satPow2 ((attempt - 1) % 2 ^ 32)) MAX_BACKOFF

/-- Observable history of one supervised-task run: how many times the
service future was created and awaited, and the backoff delays slept
between attempts, in order. -/
structure LoopTrace where
  invocations : Nat
  delays : List Nat
deriving DecidableEq

/-- Why the supervision loop left its `loop { ... }`: the service returned
`Ok` (normal), or the restart budget was exhausted. -/
inductive LoopExit
  | normal
  | exhausted
deriving DecidableEq

/-- Result of running the supervision loop on a given amount of fuel. -/
inductive LoopOutcome
  | finished (why : LoopExit) (t : LoopTrace)
  | panicked (t : LoopTrace)
  | outOfFuel (t : LoopTrace)
deriving DecidableEq

/-- The trace accumulated by the loop, whatever the outcome. -/
def LoopOutcome.trace : LoopOutcome → LoopTrace
  | .finished _ t => t
  | .panicked t => t
  | .outOfFuel t => t

/-- The guard `if let Some(max) = policy.max_attempts && attempts >= max`. -/
def maxReached (max : Option Nat) (attempts : Nat) : Bool :=
  match max with
  | some m => decide (m ≤ attempts)
  | none => false

/-- Embeds the supervision loop shared by `SupervisedTask::run`
(`src/supervisor.rs`, lines 171-236) and `WorkerRuntime::run`
(`src/worker/mod.rs`, lines 56-112; also `WorkerService::run` in
`src/worker.rs`), specialised to the executions in which the cancellation
token never fires.  `results i` tells whether the `i`-th service invocation
(0-based) completes with `Ok`; `fuel` bounds the number of loop iterations;
`attempts` and the accumulated trace are the loop state.  Each iteration
invokes the service once; on `Ok` the loop breaks, on `Err` it increments
`attempts`, breaks when the budget is reached, otherwise computes the
backoff delay (panicking on `Duration` overflow) and sleeps it.  -/
def SupervisedTask.run (p : RestartPolicy) (results : Nat → Bool) :
    Nat → Nat → LoopTrace → LoopOutcome
  | 0, _, t => .outOfFuel t
  | fuel + 1, attempts, t =>
    if results t.invocations then
      .finished .normal ⟨t.invocations + 1, t.delays⟩
    else
      if maxReached p.max_attempts (attempts + 1) then
        .finished .exhausted ⟨t.invocations + 1, t.delays⟩
      else
        match p.delay (attempts + 1) with
        | none => .panicked ⟨t.invocations + 1, t.delays⟩
        | some d =>
          SupervisedTask.run p results fuel (attempts + 1)
            ⟨t.invocations + 1, t.delays ++ [d]⟩

/-- Embeds `std::net::IpAddr`: an IPv4 or IPv6 address (the numeric address
itself is abstracted to a `Nat`; `0` stands for the wildcard/unspecified
address `Ipv4Addr::UNSPECIFIED` resp. `Ipv6Addr::UNSPECIFIED`). -/
inductive IpAddr
  | V4 (a : Nat)
  | V6 (a : Nat)
deriving DecidableEq

/-- Embeds `std::net::SocketAddr`: an IP address paired with a port. -/
structure SocketAddr where
  ip : IpAddr
  port : Nat
deriving DecidableEq

/-- Rust `SocketAddr::is_ipv6`. -/
def SocketAddr.is_ipv6 : SocketAddr → Bool
  | ⟨.V6 _, _⟩ => true
  | ⟨.V4 _, _⟩ => false

/-- Embeds `struct NetworkInterface` of `src/network.rs`: name, OS index,
IPv4 and IPv6 address lists, optional MAC address. -/
structure NetworkInterface where
  name : String
  index : Nat
  inet : List Nat
  inet6 : List Nat
  mac : Option (List Nat)

/-- Embeds `enum BindMode` of `src/network.rs`. -/
inductive BindMode
  | PreferInterface
  | BindAll
  | Specific (ip : IpAddr)

/-- Embeds `resolve_addrs` of `src/network.rs` (lines 197-223): expands a
bind mode, a port and an interface into the ordered candidate address list,
with the IPv4-wildcard fallback when `PreferInterface` finds no address. -/
def resolve_addrs (mode : BindMode) (port : Nat) (iface : NetworkInterface) :
    List SocketAddr :=
  match mode with
  | .Specific ip => [⟨ip, port⟩]
  | .BindAll => [⟨.V4 0, port⟩, ⟨.V6 0, port⟩]
  | .PreferInterface =>
    let addrs := iface.inet.map (fun ip => (⟨.V4 ip, port⟩ : SocketAddr)) ++
      iface.inet6.map (fun ip => (⟨.V6 ip, port⟩ : SocketAddr))
    if addrs.isEmpty then [⟨.V4 0, port⟩] else addrs

/-- Embeds `std::io::Error` as far as the claims need it: either an opaque
OS error (`code`) or the `ErrorKind::AddrNotAvailable` error that
`src/network/socket/bind.rs` constructs itself. -/
inductive IoError
  | code (n : Nat)
  | addrNotAvailable
deriving DecidableEq

/-- Embeds `enum Error` of `src/error.rs`. -/
inductive Error
  | InterfaceNotFound (s : String)
  | InvalidInterfaceName (s : String)
  | Io (e : IoError)
  | NoAddrAvailable
  | ServiceFailure (s : String)
deriving DecidableEq

/-- Environment oracle for `bind_tcp_listener` of `src/network.rs`: the
outcome the operating system gives to each fallible socket call, per
candidate address.  `none` means the call succeeds; `some e` means it fails
with the I/O error `e`.  `bindOk` tells whether `socket.bind(addr)`
succeeds. -/
structure TcpSocketEnv where
  newErr : SocketAddr → Option IoError
  reuseAddrErr : SocketAddr → Option IoError
  reusePortErr : SocketAddr → Option IoError
  onlyV6Err : SocketAddr → Option IoError
  bindOk : SocketAddr → Bool
  listenErr : SocketAddr → Option IoError
  nonblockErr : SocketAddr → Option IoError
  fromStdErr : SocketAddr → Option IoError

/-- Embeds `bind_tcp_listener` of `src/network.rs` (lines 225-250).  For
each candidate address in order: `Socket::new(..)?` (a failure aborts, via
`?`), `set_reuse_address(true)?`, `set_reuse_port(true)?` (Linux),
`set_only_v6(true)?` for IPv6 addresses, then `socket.bind(..)`; a bind
failure advances to the next candidate, a bind success runs
`listen(1024)?`, `set_nonblocking(true)?`, `TcpListener::from_std(..)?` and
returns the listener (modelled by the address it is bound to).  Exhausting
the list yields `Error::NoAddrAvailable`. -/
def bind_tcp_listener (env : TcpSocketEnv) :
    List SocketAddr → Except Error SocketAddr
  | [] => .error .NoAddrAvailable
  | addr :: rest =>
    match env.newErr addr with
    | some e => .error (.Io e)
    | none =>
      match env.reuseAddrErr addr with
      | some e => .error (.Io e)
      | none =>
        match env.reusePortErr addr with
        | some e => .error (.Io e)
        | none =>
          match (if addr.is_ipv6 then env.onlyV6Err addr else none) with
          | some e => .error (.Io e)
          | none =>
            if env.bindOk addr then
              match env.listenErr addr with
              | some e => .error (.Io e)
              | none =>
                match env.nonblockErr addr with
                | some e => .error (.Io e)
                | none =>
                  match env.fromStdErr addr with
                  | some e => .error (.Io e)
                  | none => .ok addr
            else bind_tcp_listener env rest

/-- Environment oracle for the modular `bind_tcp_listener` of
`src/network/socket/bind.rs`, which additionally applies optional
receive/send buffer overrides (`tcp_recvbuf_size()` / `tcp_sendbuf_size()`,
modelled as the `Option` values they return). -/
structure TcpSocketEnvV2 where
  newErr : SocketAddr → Option IoError
  reuseAddrErr : SocketAddr → Option IoError
  reusePortErr : SocketAddr → Option IoError
  onlyV6Err : SocketAddr → Option IoError
  recvbufSize : Option Nat
  setRecvbufErr : SocketAddr → Option IoError
  sendbufSize : Option Nat
  setSendbufErr : SocketAddr → Option IoError
  bindOk : SocketAddr → Bool
  listenErr : SocketAddr → Option IoError
  nonblockErr : SocketAddr → Option IoError
  fromStdErr : SocketAddr → Option IoError

/-- Embeds the modular `bind_tcp_listener` of `src/network/socket/bind.rs`
(lines 97-140).  It differs from the `src/network.rs` version in one way
that matters here: a `Socket::new` failure is logged and the loop advances
to the next candidate instead of aborting.  Option-setting, buffer-setting
and `listen` failures still abort via `?`.  Exhaustion yields the
`ErrorKind::AddrNotAvailable` I/O error. -/
def bind_tcp_listener_v2 (env : TcpSocketEnvV2) :
    List SocketAddr → Except IoError SocketAddr
  | [] => .error .addrNotAvailable
  | addr :: rest =>
    match env.newErr addr with
    | some _ => bind_tcp_listener_v2 env rest
    | none =>
      match env.reuseAddrErr addr with
      | some e => .error e
      | none =>
        match env.reusePortErr addr with
        | some e => .error e
        | none =>
          match (if addr.is_ipv6 then env.onlyV6Err addr else none) with
          | some e => .error e
          | none =>
            match (match env.recvbufSize with
                   | some _ => env.setRecvbufErr addr
                   | none => none) with
            | some e => .error e
            | none =>
              match (match env.sendbufSize with
                     | some _ => env.setSendbufErr addr
                     | none => none) with
              | some e => .error e
              | none =>
                if env.bindOk addr then
                  match env.listenErr addr with
                  | some e => .error e
                  | none =>
                    match env.nonblockErr addr with
                    | some e => .error e
                    | none =>
                      match env.fromStdErr addr with
                      | some e => .error e
                      | none => .ok addr
                else bind_tcp_listener_v2 env rest

/-- One result of `socket.recv_from` on a UDP socket: a received datagram
(payload abstracted to a `Nat`) or an I/O error. -/
inductive RecvEvent
  | dgram (payload : Nat)
  | recvErr (e : IoError)
deriving DecidableEq

/-- Embeds the per-socket task spawned by `run_udp` in `src/network.rs`
(lines 167-190; same loop in `run_udp_service`, `src/runtime/udp.rs`):
`loop { match recv_from { Ok -> handle packet, continue; Err -> break } }`.
Applied to the socket's receive-event script, it tells whether the task has
terminated: it terminates exactly by breaking on the first receive error;
with no error in its script it is still looping (`false`). -/
def socket_task_finished : List RecvEvent → Bool
  | [] => false
  | .dgram _ :: rest => socket_task_finished rest
  | .recvErr _ :: _ => true

/-- Embeds the overall result of `run_udp` of `src/network.rs` (lines
149-194) as a function of the bound sockets' receive scripts: with no
sockets it fails fast with `NoAddrAvailable`; otherwise it awaits every
spawned per-socket task (`while set.join_next().await.is_some()`) and then
returns `Ok(())`.  The join completes exactly when every per-socket task
has terminated; `none` models the run that never completes because some
socket task is still receiving. -/
def run_udp (sockets : List (List RecvEvent)) : Option (Except Error Unit) :=
  if sockets.isEmpty then some (.error .NoAddrAvailable)
  else if sockets.all socket_task_finished then some (.ok ()) else none

/-- A supervised task as the supervisor sees it: its restart policy and the
outcome script of its service invocations.  Only the length of the
supervisor's task list matters to the claims below. -/
structure TaskSpec where
  policy : RestartPolicy
  results : Nat → Bool

/-- Environment oracle for `Supervisor::run`: the outcome of awaiting
`tokio::signal::ctrl_c()`, and whether the 5-second grace period elapsed
before all worker tasks finished. -/
structure SupervisorEnv where
  ctrlC : Except IoError Unit
  graceExpired : Bool

/-- Observables of one `Supervisor::run` call: its return value, whether it
awaited the interrupt signal, whether it entered the shutdown/grace-period
phase, and whether it force-aborted remaining tasks. -/
structure SupervisorRunObs where
  value : Except Error Unit
  awaitedSignal : Bool
  enteredShutdown : Bool
  abortedAll : Bool

/-- Embeds the control flow of `Supervisor::run` of `src/supervisor.rs`
(lines 97-136): with an empty task list it returns `Ok(())` at once,
before awaiting the interrupt signal; otherwise it spawns the workers,
awaits `ctrl_c` (an `Err` there surfaces as `Error::Io` via `?`), cancels
the token, and runs the graceful-shutdown wait, force-aborting the
remaining tasks when the 5-second grace period expires. -/
def Supervisor.run (tasks : List TaskSpec) (env : SupervisorEnv) :
    SupervisorRunObs :=
  if tasks.isEmpty then ⟨.ok (), false, false, false⟩
  else
    match env.ctrlC with
    | .error e => ⟨.error (.Io e), true, false, false⟩
    | .ok () => ⟨.ok (), true, true, env.graceExpired⟩

/-! Helper lemmas about the backoff arithmetic. -/

theorem satPow2_le (e : Nat) : satPow2 e ≤ U32_MAX :=
  min_le_right _ _

theorem durMulU32_of_le (d f : Nat) (hd : d ≤ 2 ^ 32 * NANOS_PER_SEC)
    (hf : f ≤ U32_MAX) : durMulU32 d f = some (d * f) := by
  unfold durMulU32
  rw [if_pos]
  calc d * f / NANOS_PER_SEC
      ≤ 2 ^ 32 * NANOS_PER_SEC * U32_MAX / NANOS_PER_SEC :=
        Nat.div_le_div_right (Nat.mul_le_mul hd hf)
    _ < U64_SIZE := by decide

theorem delay_eq_delayVal (max : Option Nat) (base n : Nat)
    (hbase : base ≤ 2 ^ 32 * NANOS_PER_SEC) :
    (RestartPolicy.mk max base).delay n = some (delayVal base n) := by
  show (match durMulU32 base (satPow2 ((n - 1) % 2 ^ 32)) with
        | none => none
        | some d => some (min d MAX_BACKOFF)) = some (delayVal base n)
  rw [durMulU32_of_le _ _ hbase (satPow2_le _)]
  rfl

theorem satPow2_exact (n : Nat) (h1 : 1 ≤ n) (h2 : n ≤ 32) :
    satPow2 ((n - 1) % 2 ^ 32) = 2 ^ (n - 1) := by
  have hmod : (n - 1) % 2 ^ 32 = n - 1 :=
    Nat.mod_eq_of_lt (lt_of_le_of_lt (by omega : n - 1 ≤ 31) (by decide))
  have hpow : 2 ^ (n - 1) ≤ U32_MAX :=
    le_trans (Nat.pow_le_pow_right (by decide) (by omega : n - 1 ≤ 31))
      (by decide)
  rw [satPow2, hmod, min_eq_left hpow]

theorem satPow2_saturated (n : Nat) (h1 : 33 ≤ n) (h2 : n ≤ 2 ^ 32) :
    satPow2 ((n - 1) % 2 ^ 32) = U32_MAX := by
  have hmod : (n - 1) % 2 ^ 32 = n - 1 :=
    Nat.mod_eq_of_lt (by omega)
  have hpow : U32_MAX ≤ 2 ^ (n - 1) :=
    le_trans (by decide : U32_MAX ≤ 2 ^ 32)
      (Nat.pow_le_pow_right (by decide) (by omega : 32 ≤ n - 1))
  rw [satPow2, hmod, min_eq_right hpow]

theorem delayVal_strict_or_capped (base i : Nat) (hbase : 0 < base)
    (h1 : 1 ≤ i) (h2 : i ≤ 32) :
    delayVal base i = MAX_BACKOFF ∨ delayVal base i < delayVal base (i + 1) := by
  have hfi : satPow2 ((i - 1) % 2 ^ 32) = 2 ^ (i - 1) := satPow2_exact i h1 h2
  have hlt : satPow2 ((i + 1 - 1) % 2 ^ 32) > 2 ^ (i - 1) := by
    rcases Nat.lt_or_ge i 32 with hi | hi
    · rw [satPow2_exact (i + 1) (by omega) (by omega)]
      exact Nat.pow_lt_pow_right (by decide) (by omega)
    · have hi32 : i = 32 := by omega
      rw [satPow2_saturated (i + 1) (by omega) (by omega), hi32]
      decide
  rcases Nat.lt_or_ge (base * 2 ^ (i - 1)) MAX_BACKOFF with hcap | hcap
  · right
    unfold delayVal
    rw [hfi, min_eq_left (le_of_lt hcap)]
    exact lt_min (mul_lt_mul_of_pos_left hlt hbase) hcap
  · left
    unfold delayVal
    rw [hfi, min_eq_right hcap]

theorem delayVal_mono (base n m : Nat) (h1 : 1 ≤ n) (h2 : n ≤ m)
    (h3 : m ≤ 2 ^ 32) : delayVal base n ≤ delayVal base m := by
  unfold delayVal
  have hn : (n - 1) % 2 ^ 32 = n - 1 := Nat.mod_eq_of_lt (by omega)
  have hm : (m - 1) % 2 ^ 32 = m - 1 := Nat.mod_eq_of_lt (by omega)
  rw [hn, hm]
  have hf : satPow2 (n - 1) ≤ satPow2 (m - 1) :=
    min_le_min (Nat.pow_le_pow_right (by decide) (by omega)) (le_refl _)
  exact min_le_min (Nat.mul_le_mul_left base hf) (le_refl _)

theorem delay_le_cap (p : RestartPolicy) (n d : Nat)
    (h : p.delay n = some d) : d ≤ MAX_BACKOFF := by
  unfold RestartPolicy.delay at h
  split at h
  · exact absurd h (by simp)
  · simp only [Option.some.injEq] at h
    rw [← h]
    exact min_le_right _ _

/-! Helper lemmas about the supervision loop. -/

theorem run_allFail (k base : Nat) (results : Nat → Bool)
    (hres : ∀ i, results i = false) (hbase : base ≤ 2 ^ 32 * NANOS_PER_SEC) :
    ∀ fuel attempts t, attempts < k → k - attempts ≤ fuel →
      SupervisedTask.run ⟨some k, base⟩ results fuel attempts t =
        .finished .exhausted
          ⟨t.invocations + (k - attempts),
           t.delays ++
             (List.range' (attempts + 1) (k - 1 - attempts)).map (delayVal base)⟩ := by
  intro fuel
  induction fuel with
  | zero => intro attempts t ha hf; omega
  | succ fuel ih =>
    intro attempts t ha hf
    simp only [SupervisedTask.run, hres, maxReached, Bool.false_eq_true, if_false]
    by_cases hk : k ≤ attempts + 1
    · have hke : k = attempts + 1 := by omega
      simp only [hk, decide_True, decide_eq_true_eq, if_pos]
      have h0 : k - 1 - attempts = 0 := by omega
      have h1 : k - attempts = 1 := by omega
      rw [h0, h1]
      simp
    · rw [if_neg (by simp [hk])]
      rw [delay_eq_delayVal (some k) base (attempts + 1) hbase]
      have hstep : (match some (delayVal base (attempts + 1)) with
          | none =>
            LoopOutcome.panicked ⟨t.invocations + 1, t.delays⟩
          | some d =>
            SupervisedTask.run ⟨some k, base⟩ results fuel (attempts + 1)
              ⟨t.invocations + 1, t.delays ++ [d]⟩) =
          SupervisedTask.run ⟨some k, base⟩ results fuel (attempts + 1)
            ⟨t.invocations + 1, t.delays ++ [delayVal base (attempts + 1)]⟩ := rfl
      rw [hstep,
        ih (attempts + 1) ⟨t.invocations + 1,
          t.delays ++ [delayVal base (attempts + 1)]⟩ (by omega) (by omega)]
      have hm : k - 1 - attempts = (k - 1 - (attempts + 1)) + 1 := by omega
      rw [hm, List.range'_succ]
      simp only [List.map_cons, LoopOutcome.finished.injEq, LoopTrace.mk.injEq]
      exact ⟨trivial, by omega, by simp⟩

theorem run_invocations_le (k base : Nat) (results : Nat → Bool) :
    ∀ fuel attempts t, attempts < k →
      (SupervisedTask.run ⟨some k, base⟩ results fuel attempts t).trace.invocations ≤
        t.invocations + (k - attempts) := by
  intro fuel
  induction fuel with
  | zero =>
    intro attempts t ha
    simp only [SupervisedTask.run, LoopOutcome.trace]
    omega
  | succ fuel ih =>
    intro attempts t ha
    simp only [SupervisedTask.run]
    cases hr : results t.invocations with
    | true => simp only [hr, if_pos, LoopOutcome.trace]; omega
    | false =>
      rw [if_neg (by simp)]
      cases hmr : maxReached (some k) (attempts + 1) with
      | true => rw [if_pos (by simp)]; simp only [LoopOutcome.trace]; omega
      | false =>
        rw [if_neg (by simp)]
        have hk2 : attempts + 1 < k ∨ attempts + 1 = k := by omega
        rcases hd : RestartPolicy.delay ⟨some k, base⟩ (attempts + 1) with _ | d
        · simp only [LoopOutcome.trace]; omega
        · rcases hk2 with hk2 | hk2
          · have := ih (attempts + 1) ⟨t.invocations + 1, t.delays ++ [d]⟩ hk2
            simp only [LoopOutcome.trace] at this ⊢
            omega
          · exact absurd hmr (by simp [maxReached, hk2.ge])

theorem run_trace_mono (p : RestartPolicy) (results : Nat → Bool) :
    ∀ fuel attempts t,
      t.invocations ≤ (SupervisedTask.run p results fuel attempts t).trace.invocations := by
  intro fuel
  induction fuel with
  | zero =>
    intro attempts t
    simp only [SupervisedTask.run, LoopOutcome.trace]
    omega
  | succ fuel ih =>
    intro attempts t
    simp only [SupervisedTask.run]
    cases hr : results t.invocations with
    | true => simp only [hr, if_pos, LoopOutcome.trace]; omega
    | false =>
      rw [if_neg (by simp)]
      cases hmr : maxReached p.max_attempts (attempts + 1) with
      | true => rw [if_pos (by simp)]; simp only [LoopOutcome.trace]; omega
      | false =>
        rw [if_neg (by simp)]
        rcases hd : p.delay (attempts + 1) with _ | d
        · simp only [LoopOutcome.trace]; omega
        · have := ih (attempts + 1) ⟨t.invocations + 1, t.delays ++ [d]⟩
          simp only [LoopOutcome.trace] at this ⊢
          omega

theorem run_invocations_ge_one (p : RestartPolicy) (results : Nat → Bool)
    (fuel : Nat) (hf : 1 ≤ fuel) :
    1 ≤ (SupervisedTask.run p results fuel 0 ⟨0, []⟩).trace.invocations := by
  rcases fuel with _ | f
  · omega
  simp only [SupervisedTask.run]
  cases hr : results (0 : Nat) with
  | true => simp only [hr, if_pos, LoopOutcome.trace]; omega
  | false =>
    rw [if_neg (by simp [hr])]
    cases hmr : maxReached p.max_attempts (0 + 1) with
    | true => rw [if_pos (by simp)]; simp only [LoopOutcome.trace]; omega
    | false =>
      rw [if_neg (by simp)]
      rcases hd : p.delay (0 + 1) with _ | d
      · simp only [LoopOutcome.trace]; omega
      · exact run_trace_mono p results f (0 + 1) ⟨0 + 1, [] ++ [d]⟩

/-! Claim theorems. -/

/-- C1 (counterexample): the claim quantifies over every restart policy
with `maxAttempts = Some k`, `k ≥ 1`.  For the policy with `k = 3` and
`base_delay = 2 ^ 63` seconds and an always-failing service, the backoff
computation for the second restart (`base_delay * 2`) overflows `Duration`
and panics, so the service is invoked only 2 times, not 3, and the loop
never reaches the exhausted state. -/
theorem c1_counterexample :
    SupervisedTask.run ⟨some 3, 2 ^ 63 * NANOS_PER_SEC⟩ (fun _ => false) 10 0 ⟨0, []⟩ =
      .panicked ⟨2, [MAX_BACKOFF]⟩ ∧
    (SupervisedTask.run ⟨some 3, 2 ^ 63 * NANOS_PER_SEC⟩ (fun _ => false) 10 0
        ⟨0, []⟩).trace.invocations ≠ 3 :=
  ⟨by decide, by decide⟩

/-- C1 (amended): for every restart policy with `maxAttempts = Some k`
(`k ≥ 1`) whose base delay is at most `2 ^ 32` seconds (so the backoff
multiplication can never overflow), and every service that always fails,
the supervised loop invokes the service exactly `k` times, ends exhausted
after the `k`-th consecutive failure having slept the backoff delays for
attempts `1 .. k-1`, and — for any fuel at all — never starts a
`(k+1)`-th invocation. -/
theorem c1_exhausts_after_k (k base : Nat) (results : Nat → Bool) (fuel : Nat)
    (hk : 1 ≤ k) (hbase : base ≤ 2 ^ 32 * NANOS_PER_SEC)
    (hres : ∀ i, results i = false) (hfuel : k ≤ fuel) :
    SupervisedTask.run ⟨some k, base⟩ results fuel 0 ⟨0, []⟩ =
      .finished .exhausted ⟨k, (List.range' 1 (k - 1)).map (delayVal base)⟩ ∧
    ∀ fuel2,
      (SupervisedTask.run ⟨some k, base⟩ results fuel2 0 ⟨0, []⟩).trace.invocations ≤ k := by
  constructor
  · have h := run_allFail k base results hres hbase fuel 0 ⟨0, []⟩ (by omega) (by omega)
    simpa using h
  · intro fuel2
    have h := run_invocations_le k base results fuel2 0 ⟨0, []⟩ (by omega)
    simpa using h

/-- C1 (witness): the amended theorem applied to `k = 2`, a base delay of
one second and an always-failing service. -/
theorem c1_exhausts_after_k_witness :
    SupervisedTask.run ⟨some 2, NANOS_PER_SEC⟩ (fun _ => false) 5 0 ⟨0, []⟩ =
      .finished .exhausted ⟨2, (List.range' 1 1).map (delayVal NANOS_PER_SEC)⟩ ∧
    ∀ fuel2,
      (SupervisedTask.run ⟨some 2, NANOS_PER_SEC⟩ (fun _ => false) fuel2 0
        ⟨0, []⟩).trace.invocations ≤ 2 :=
  c1_exhausts_after_k 2 NANOS_PER_SEC (fun _ => false) 5 (by decide) (by decide)
    (fun _ => rfl) (by decide)

/-- C3 (counterexample): the claim states
`delay(n) = min(baseDelay * 2 ^ (n-1), 60s)` exactly, for every `n ≥ 1`.
For a base delay of 1 nanosecond and `n = 33` the code computes the factor
with `2u32.saturating_pow 32`, which saturates at `u32::MAX = 2^32 - 1`,
yielding 4294967295 ns instead of the claimed `2 ^ 32 = 4294967296` ns. -/
theorem c3_counterexample :
    (RestartPolicy.mk (some 5) 1).delay 33 = some 4294967295 ∧
      ¬ (4294967295 = min (1 * 2 ^ 32) MAX_BACKOFF) :=
  ⟨by decide, by decide⟩

/-- C3 (amended): for a base delay of at most `2 ^ 32` seconds (no
`Duration` overflow), the computed delay equals
`min(baseDelay * 2 ^ (n-1), 60s)` for attempts `1 ≤ n ≤ 32`; for
`33 ≤ n ≤ 2 ^ 32` the saturated factor makes it
`min(baseDelay * (2 ^ 32 - 1), 60s)` instead. -/
theorem c3_delay_formula (max : Option Nat) (base : Nat)
    (hbase : base ≤ 2 ^ 32 * NANOS_PER_SEC) :
    (∀ n, 1 ≤ n → n ≤ 32 →
      (RestartPolicy.mk max base).delay n =
        some (min (base * 2 ^ (n - 1)) MAX_BACKOFF)) ∧
    (∀ n, 33 ≤ n → n ≤ 2 ^ 32 →
      (RestartPolicy.mk max base).delay n =
        some (min (base * U32_MAX) MAX_BACKOFF)) := by
  constructor
  · intro n h1 h2
    rw [delay_eq_delayVal max base n hbase]
    unfold delayVal
    rw [satPow2_exact n h1 h2]
  · intro n h1 h2
    rw [delay_eq_delayVal max base n hbase]
    unfold delayVal
    rw [satPow2_saturated n h1 h2]

/-- C3 (witness): the amended formula evaluated at attempts 3 and 40 for a
one-second base delay. -/
theorem c3_delay_formula_witness :
    (RestartPolicy.mk (some 5) NANOS_PER_SEC).delay 3 =
      some (min (NANOS_PER_SEC * 2 ^ 2) MAX_BACKOFF) ∧
    (RestartPolicy.mk (some 5) NANOS_PER_SEC).delay 40 =
      some (min (NANOS_PER_SEC * U32_MAX) MAX_BACKOFF) :=
  ⟨(c3_delay_formula (some 5) NANOS_PER_SEC (by decide)).1 3 (by decide) (by decide),
   (c3_delay_formula (some 5) NANOS_PER_SEC (by decide)).2 40 (by decide) (by decide)⟩

/-- C4 (counterexample): the claim includes `delay(1) = baseDelay` for
every base delay.  For a base delay of 61 seconds the 60-second cap
applies already at attempt 1, so `delay(1) = 60s ≠ 61s`. -/
theorem c4_counterexample :
    (RestartPolicy.mk (some 5) (61 * NANOS_PER_SEC)).delay 1 = some MAX_BACKOFF ∧
      MAX_BACKOFF ≠ 61 * NANOS_PER_SEC :=
  ⟨by decide, by decide⟩

/-- C4 (amended): whenever `delay` returns a value it is at most 60
seconds; for base delays of at most `2 ^ 32` seconds it is non-decreasing
over attempts `1 ≤ n ≤ m ≤ 2 ^ 32`; and `delay(1) = baseDelay` holds
exactly for base delays of at most 60 seconds (beyond that the cap
truncates it). -/
theorem c4_delay_props (max : Option Nat) (base : Nat) :
    (∀ n d, (RestartPolicy.mk max base).delay n = some d → d ≤ MAX_BACKOFF) ∧
    (base ≤ 2 ^ 32 * NANOS_PER_SEC → ∀ n m, 1 ≤ n → n ≤ m → m ≤ 2 ^ 32 →
      ∃ dn dm, (RestartPolicy.mk max base).delay n = some dn ∧
        (RestartPolicy.mk max base).delay m = some dm ∧ dn ≤ dm) ∧
    (base ≤ MAX_BACKOFF → (RestartPolicy.mk max base).delay 1 = some base) := by
  refine ⟨fun n d h => delay_le_cap _ n d h, ?_, ?_⟩
  · intro hbase n m h1 h2 h3
    exact ⟨delayVal base n, delayVal base m, delay_eq_delayVal max base n hbase,
      delay_eq_delayVal max base m hbase, delayVal_mono base n m h1 h2 h3⟩
  · intro hbase
    rw [delay_eq_delayVal max base 1 (le_trans hbase (by decide))]
    unfold delayVal
    rw [satPow2_exact 1 (by decide) (by decide)]
    simp only [Nat.sub_self, pow_zero, mul_one]
    rw [min_eq_left hbase]

/-- C4 (witness): the amended properties evaluated for a one-second base
delay at attempts 1, 2 and 7. -/
theorem c4_delay_props_witness :
    (∃ dn dm, (RestartPolicy.mk (some 5) NANOS_PER_SEC).delay 2 = some dn ∧
      (RestartPolicy.mk (some 5) NANOS_PER_SEC).delay 7 = some dm ∧ dn ≤ dm) ∧
    (RestartPolicy.mk (some 5) NANOS_PER_SEC).delay 1 = some NANOS_PER_SEC :=
  ⟨(c4_delay_props (some 5) NANOS_PER_SEC).2.1 (by decide) 2 7 (by decide) (by decide)
      (by decide),
   (c4_delay_props (some 5) NANOS_PER_SEC).2.2 (by decide)⟩

/-- C5 (counterexample): the claim asserts strictly increasing
inter-attempt delays (until the 60s cap) for a worker whose loop always
fails.  With a zero base delay (`maxAttempts = 3`) the two observed delays
are both 0: the adjacent pair is neither strictly increasing nor at the
cap. -/
theorem c5_counterexample :
    SupervisedTask.run ⟨some 3, 0⟩ (fun _ => false) 10 0 ⟨0, []⟩ =
      .finished .exhausted ⟨3, [0, 0]⟩ ∧
    ¬ ((0 : Nat) < 0 ∨ (0 : Nat) = MAX_BACKOFF) :=
  ⟨by decide, by decide⟩

/-- C5 (amended): with `maxAttempts = k ≥ 1` and an always-failing
service, the worker attempts the loop exactly `k` times (hence `k - 1`
restarts) and observes the `k - 1` backoff delays for attempts
`1 .. k-1`; for a positive base delay (at most `2 ^ 32` seconds) each
observed delay is strictly larger than its predecessor until the
60-second cap is reached, for attempts up to 32 (beyond attempt 33 the
saturated `u32` factor makes the below-cap delays plateau). -/
theorem c5_restart_schedule (k base fuel : Nat) (hk : 1 ≤ k) (hbase0 : 0 < base)
    (hbase : base ≤ 2 ^ 32 * NANOS_PER_SEC) (hfuel : k ≤ fuel) :
    SupervisedTask.run ⟨some k, base⟩ (fun _ => false) fuel 0 ⟨0, []⟩ =
      .finished .exhausted ⟨k, (List.range' 1 (k - 1)).map (delayVal base)⟩ ∧
    ∀ i, 1 ≤ i → i ≤ 32 →
      delayVal base i = MAX_BACKOFF ∨ delayVal base i < delayVal base (i + 1) := by
  constructor
  · have h := run_allFail k base (fun _ => false) (fun _ => rfl) hbase fuel 0 ⟨0, []⟩
      (by omega) (by omega)
    simpa using h
  · intro i h1 h2
    exact delayVal_strict_or_capped base i hbase0 h1 h2

/-- C5 (witness): the amended theorem applied to `k = 3` and a one-second
base delay. -/
theorem c5_restart_schedule_witness :
    SupervisedTask.run ⟨some 3, NANOS_PER_SEC⟩ (fun _ => false) 10 0 ⟨0, []⟩ =
      .finished .exhausted ⟨3, (List.range' 1 2).map (delayVal NANOS_PER_SEC)⟩ ∧
    ∀ i, 1 ≤ i → i ≤ 32 →
      delayVal NANOS_PER_SEC i = MAX_BACKOFF ∨
        delayVal NANOS_PER_SEC i < delayVal NANOS_PER_SEC (i + 1) :=
  c5_restart_schedule 3 NANOS_PER_SEC 10 (by decide) (by decide) (by decide) (by decide)

/-- C10: the supervised loop always invokes the service at least once
before consulting the attempt budget — also with `maxAttempts = Some 0`;
the policies `Some 0` and `Some 1` produce identical loop behaviour for
every service script; and with an always-failing service both produce
exactly one invocation and no backoff sleep. -/
theorem c10_first_invocation_unconditional :
    (∀ (p : RestartPolicy) (results : Nat → Bool) (fuel : Nat), 1 ≤ fuel →
      1 ≤ (SupervisedTask.run p results fuel 0 ⟨0, []⟩).trace.invocations) ∧
    (∀ (base : Nat) (results : Nat → Bool) (fuel : Nat),
      SupervisedTask.run ⟨some 0, base⟩ results fuel 0 ⟨0, []⟩ =
        SupervisedTask.run ⟨some 1, base⟩ results fuel 0 ⟨0, []⟩) ∧
    (∀ (base : Nat) (fuel : Nat), 1 ≤ fuel →
      SupervisedTask.run ⟨some 0, base⟩ (fun _ => false) fuel 0 ⟨0, []⟩ =
        .finished .exhausted ⟨1, []⟩) := by
  refine ⟨run_invocations_ge_one, ?_, ?_⟩
  · intro base results fuel
    rcases fuel with _ | f
    · rfl
    cases hr : results (0 : Nat) with
    | true => simp [SupervisedTask.run, hr]
    | false => simp [SupervisedTask.run, hr, maxReached]
  · intro base fuel hf
    rcases fuel with _ | f
    · omega
    rfl

/-- C10 (witness): the conjuncts instantiated at fuel 1 and a concrete
policy. -/
theorem c10_first_invocation_unconditional_witness :
    1 ≤ (SupervisedTask.run ⟨some 5, NANOS_PER_SEC⟩ (fun _ => true) 1 0
        ⟨0, []⟩).trace.invocations ∧
    SupervisedTask.run ⟨some 0, NANOS_PER_SEC⟩ (fun _ => false) 1 0 ⟨0, []⟩ =
      .finished .exhausted ⟨1, []⟩ :=
  ⟨c10_first_invocation_unconditional.1 ⟨some 5, NANOS_PER_SEC⟩ (fun _ => true) 1
      (by decide),
   c10_first_invocation_unconditional.2.2 NANOS_PER_SEC 1 (by decide)⟩

/-- C2: `resolve_addrs` is a pure total function returning a non-empty
ordered list: `Specific(ip)` yields exactly `[ip:port]`, `BindAll` the
IPv4 wildcard then the IPv6 wildcard, `PreferInterface` all interface
IPv4 addresses followed by all IPv6 addresses, and the single IPv4
wildcard when the interface has no addresses. -/
theorem c2_resolve_addrs_total (mode : BindMode) (port : Nat)
    (iface : NetworkInterface) :
    resolve_addrs mode port iface ≠ [] ∧
    (∀ ip, resolve_addrs (.Specific ip) port iface = [⟨ip, port⟩]) ∧
    resolve_addrs .BindAll port iface = [⟨.V4 0, port⟩, ⟨.V6 0, port⟩] ∧
    (iface.inet ≠ [] ∨ iface.inet6 ≠ [] →
      resolve_addrs .PreferInterface port iface =
        iface.inet.map (fun ip => (⟨.V4 ip, port⟩ : SocketAddr)) ++
          iface.inet6.map (fun ip => (⟨.V6 ip, port⟩ : SocketAddr))) ∧
    (iface.inet = [] → iface.inet6 = [] →
      resolve_addrs .PreferInterface port iface = [⟨.V4 0, port⟩]) := by
  refine ⟨?_, fun ip => rfl, rfl, ?_, ?_⟩
  · cases mode with
    | Specific ip => simp [resolve_addrs]
    | BindAll => simp [resolve_addrs]
    | PreferInterface =>
      simp only [resolve_addrs]
      split
      · simp
      · rename_i hne
        intro hnil
        exact hne (by simp [hnil])
  · intro h
    simp only [resolve_addrs]
    rw [if_neg]
    intro hemp
    have hnil : iface.inet.map (fun ip => (⟨.V4 ip, port⟩ : SocketAddr)) ++
        iface.inet6.map (fun ip => (⟨.V6 ip, port⟩ : SocketAddr)) = [] := by
      simpa [List.isEmpty_iff] using hemp
    rcases List.append_eq_nil.mp hnil with ⟨h4, h6⟩
    rcases h with h | h
    · exact h (List.map_eq_nil_iff.mp h4)
    · exact h (List.map_eq_nil_iff.mp h6)
  · intro h4 h6
    simp [resolve_addrs, h4, h6]

/-- C2 (witness): the resolution cases evaluated on a concrete interface
with one IPv4 and one IPv6 address, and on an interface with no
addresses. -/
theorem c2_resolve_addrs_total_witness :
    resolve_addrs .PreferInterface 8080 ⟨"eth0", 2, [2130706433], [1], none⟩ =
      ([2130706433] : List Nat).map (fun ip => (⟨.V4 ip, 8080⟩ : SocketAddr)) ++
        ([1] : List Nat).map (fun ip => (⟨.V6 ip, 8080⟩ : SocketAddr)) ∧
    resolve_addrs .PreferInterface 8080 ⟨"dummy0", 7, [], [], none⟩ =
      [⟨.V4 0, 8080⟩] :=
  ⟨(c2_resolve_addrs_total .PreferInterface 8080
      ⟨"eth0", 2, [2130706433], [1], none⟩).2.2.2.1 (Or.inl (by simp)),
   (c2_resolve_addrs_total .PreferInterface 8080
      ⟨"dummy0", 7, [], [], none⟩).2.2.2.2 rfl rfl⟩

/-- C6: `Supervisor::run` with zero registered tasks returns `Ok` at once,
without awaiting the interrupt signal and without entering the
shutdown/grace-period phase — whatever the signal environment does; with
at least one task it does await the signal. -/
theorem c6_empty_supervisor_run (env : SupervisorEnv) (t : TaskSpec)
    (ts : List TaskSpec) :
    Supervisor.run [] env = ⟨.ok (), false, false, false⟩ ∧
    (Supervisor.run (t :: ts) env).awaitedSignal = true := by
  constructor
  · rfl
  · rcases env with ⟨c, g⟩
    rcases c with e | u
    · rfl
    · rfl

/-- C7 (counterexample): the claim states that a socket-construction
failure on one candidate is recovered by advancing to the next candidate.
In `bind_tcp_listener` of `src/network.rs`, `Socket::new(..)?` propagates
the failure instead: with two candidates where socket construction fails
on the first and the second would bind fine, the whole call aborts with
the `Io` error — while the second candidate alone binds successfully. -/
theorem c7_counterexample :
    bind_tcp_listener
      ⟨fun a => if a = ⟨.V4 1, 80⟩ then some (.code 7) else none,
       fun _ => none, fun _ => none, fun _ => none,
       fun _ => true, fun _ => none, fun _ => none, fun _ => none⟩
      [⟨.V4 1, 80⟩, ⟨.V4 2, 80⟩] = .error (.Io (.code 7)) ∧
    bind_tcp_listener
      ⟨fun a => if a = ⟨.V4 1, 80⟩ then some (.code 7) else none,
       fun _ => none, fun _ => none, fun _ => none,
       fun _ => true, fun _ => none, fun _ => none, fun _ => none⟩
      [⟨.V4 2, 80⟩] = .ok ⟨.V4 2, 80⟩ :=
  ⟨rfl, rfl⟩

/-- C7 (amended): candidates are tried strictly in order and a bind
failure on one candidate advances to the next, with `NoAddrAvailable`
exactly when every candidate's bind failed — provided no other socket
call fails: in the `src/network.rs` version a socket-construction (or
option-setting, listen, nonblocking, conversion) failure aborts the whole
operation instead of advancing.  The modular `src/network/socket/bind.rs`
version additionally recovers socket-construction failures by advancing,
returning the first candidate whose construction and bind both succeed. -/
theorem c7_bind_in_order :
    (∀ (env : TcpSocketEnv) (addrs : List SocketAddr),
      (∀ a ∈ addrs, env.newErr a = none ∧ env.reuseAddrErr a = none ∧
        env.reusePortErr a = none ∧ env.onlyV6Err a = none ∧
        env.listenErr a = none ∧ env.nonblockErr a = none ∧
        env.fromStdErr a = none) →
      bind_tcp_listener env addrs =
        match addrs.find? env.bindOk with
        | some a => .ok a
        | none => .error Error.NoAddrAvailable) ∧
    (∀ (env : TcpSocketEnvV2) (addrs : List SocketAddr),
      (∀ a ∈ addrs, env.reuseAddrErr a = none ∧ env.reusePortErr a = none ∧
        env.onlyV6Err a = none ∧ env.setRecvbufErr a = none ∧
        env.setSendbufErr a = none ∧ env.listenErr a = none ∧
        env.nonblockErr a = none ∧ env.fromStdErr a = none) →
      bind_tcp_listener_v2 env addrs =
        match addrs.find? (fun a => (env.newErr a).isNone && env.bindOk a) with
        | some a => .ok a
        | none => .error IoError.addrNotAvailable) := by
  constructor
  · intro env addrs h
    induction addrs with
    | nil => rfl
    | cons a rest ih =>
      obtain ⟨h1, h2, h3, h4, h5, h6, h7⟩ := h a (List.mem_cons_self a rest)
      simp only [bind_tcp_listener, h1, h2, h3, h4, ite_self]
      cases hb : env.bindOk a with
      | true =>
        simp [h5, h6, h7, List.find?_cons, hb]
      | false =>
        rw [ih (fun x hx => h x (List.mem_cons_of_mem a hx))]
        simp [List.find?_cons, hb]
  · intro env addrs h
    induction addrs with
    | nil => rfl
    | cons a rest ih =>
      obtain ⟨h1, h2, h3, h4, h5, h6, h7, h8⟩ := h a (List.mem_cons_self a rest)
      have ihr := ih (fun x hx => h x (List.mem_cons_of_mem a hx))
      cases hn : env.newErr a with
      | some e =>
        simp only [bind_tcp_listener_v2, hn, ihr]
        simp [List.find?_cons, hn]
      | none =>
        simp only [bind_tcp_listener_v2, hn, h1, h2, h3, ite_self]
        have hrb : (match env.recvbufSize with
            | some _ => env.setRecvbufErr a
            | none => none) = none := by
          cases env.recvbufSize <;> simp [h4]
        have hsb : (match env.sendbufSize with
            | some _ => env.setSendbufErr a
            | none => none) = none := by
          cases env.sendbufSize <;> simp [h5]
        simp only [hrb, hsb]
        cases hb : env.bindOk a with
        | true =>
          simp [h6, h7, h8, List.find?_cons, hn, hb]
        | false =>
          rw [ihr]
          simp [List.find?_cons, hn, hb]

/-- C7 (witness): the amended theorem applied to a two-candidate list
whose first bind fails and second succeeds (both versions), with all
other socket calls succeeding. -/
theorem c7_bind_in_order_witness :
    bind_tcp_listener
      ⟨fun _ => none, fun _ => none, fun _ => none, fun _ => none,
       fun a => decide (a.port = 81), fun _ => none, fun _ => none, fun _ => none⟩
      [⟨.V4 1, 80⟩, ⟨.V4 1, 81⟩] =
      (match ([(⟨.V4 1, 80⟩ : SocketAddr), ⟨.V4 1, 81⟩].find?
          (fun a => decide (a.port = 81))) with
        | some a => .ok a
        | none => .error Error.NoAddrAvailable) ∧
    bind_tcp_listener_v2
      ⟨fun _ => none, fun _ => none, fun _ => none, fun _ => none,
       none, fun _ => none, none, fun _ => none,
       fun a => decide (a.port = 81), fun _ => none, fun _ => none, fun _ => none⟩
      [⟨.V4 1, 80⟩, ⟨.V4 1, 81⟩] =
      (match ([(⟨.V4 1, 80⟩ : SocketAddr), ⟨.V4 1, 81⟩].find?
          (fun a => (Option.isNone (none : Option IoError)) &&
            decide (a.port = 81))) with
        | some a => .ok a
        | none => .error IoError.addrNotAvailable) :=
  ⟨c7_bind_in_order.1 _ _ (fun _ _ => ⟨rfl, rfl, rfl, rfl, rfl, rfl, rfl⟩),
   c7_bind_in_order.2 _ _ (fun _ _ => ⟨rfl, rfl, rfl, rfl, rfl, rfl, rfl, rfl⟩)⟩

/-- C8: in the datagram runtime loop a receive error terminates exactly
the failing socket's task (a task is finished precisely when its own
receive stream errored), and once every per-socket task has finished the
loop returns `Ok` — also when every task terminated because of a receive
error; a service that returns `Ok` never triggers a restart in the
supervised loop. -/
theorem c8_udp_error_completion :
    (∀ sockets : List (List RecvEvent), sockets ≠ [] →
      (∀ s ∈ sockets, ∃ e, RecvEvent.recvErr e ∈ s) →
      run_udp sockets = some (.ok ())) ∧
    (∀ s : List RecvEvent,
      socket_task_finished s = true ↔ ∃ e, RecvEvent.recvErr e ∈ s) ∧
    (∀ (p : RestartPolicy) (results : Nat → Bool) (fuel : Nat),
      results 0 = true →
      SupervisedTask.run p results (fuel + 1) 0 ⟨0, []⟩ =
        .finished .normal ⟨1, []⟩) := by
  have hiff : ∀ s : List RecvEvent,
      socket_task_finished s = true ↔ ∃ e, RecvEvent.recvErr e ∈ s := by
    intro s
    induction s with
    | nil => simp [socket_task_finished]
    | cons head rest ih =>
      cases head with
      | dgram n => simp [socket_task_finished, ih]
      | recvErr e =>
        simp only [socket_task_finished, true_iff]
        exact ⟨e, List.mem_cons_self _ _⟩
  refine ⟨?_, hiff, ?_⟩
  · intro sockets hne hall
    unfold run_udp
    rw [if_neg (by simpa [List.isEmpty_iff] using hne), if_pos]
    rw [List.all_eq_true]
    intro s hs
    exact (hiff s).mpr (hall s hs)
  · intro p results fuel hr
    simp [SupervisedTask.run, hr]

/-- C8 (witness): a two-socket run in which both tasks end in a receive
error still completes with `Ok`, and an `Ok` service result produces a
single invocation with no restart. -/
theorem c8_udp_error_completion_witness :
    run_udp [[RecvEvent.recvErr (.code 1)],
      [RecvEvent.dgram 5, RecvEvent.recvErr (.code 2)]] = some (.ok ()) ∧
    SupervisedTask.run ⟨some 5, NANOS_PER_SEC⟩ (fun _ => true) 1 0 ⟨0, []⟩ =
      .finished .normal ⟨1, []⟩ := by
  constructor
  · apply c8_udp_error_completion.1
    · simp
    · intro s hs
      simp only [List.mem_cons, List.not_mem_nil, or_false] at hs
      rcases hs with h | h
      · exact ⟨.code 1, by rw [h]; simp⟩
      · exact ⟨.code 2, by rw [h]; simp⟩
  · exact c8_udp_error_completion.2.2 ⟨some 5, NANOS_PER_SEC⟩ (fun _ => true) 0 rfl

end Maestro
